import Mathlib

/-!
# Verification of the trivia-api backend against its specification

Shallow embedding of `backend/flaskr/__init__.py` and `backend/models.py`:
the two persistence entities, the two json-schema payload validators, the
five route handlers touched by the claims, and the registered error
handlers. Database state is a pair of lists; the store commit outcome and
the random selector are explicit parameters.
-/

/-! ## JSON values

Request bodies are JSON documents. Numbers are modelled as integers: every
number a claim touches (question ids, category ids, difficulty) is
integral. Objects are association lists; Python dicts have unique keys, so
lookup takes the first binding.
-/

inductive JsonVal where
  | str (s : String)
  | num (n : Int)
  | bool (b : Bool)
  | null
  | arr (items : List JsonVal)
  | obj (fields : List (String × JsonVal))

/-- `dict.get(k)`: the value bound to `k`, or `None` when the key is absent. -/
def jsonGet (o : List (String × JsonVal)) (k : String) : Option JsonVal :=
  (o.find? (fun p => p.1 == k)).map (fun p => p.2)

/-- Python truthiness of a parsed JSON value, as used by
`if payload.data.get('searchTerm'):`. -/
def JsonVal.truthy : JsonVal → Bool
  | .str s => !(s == "")
  | .num n => !(n == 0)
  | .bool b => b
  | .null => false
  | .arr items => !items.isEmpty
  | .obj fields => !fields.isEmpty

/-- Python string rendering of a parsed JSON value, as interpolated by
`f'%{search_term}%'`. Container values are rendered by Python with
list/dict syntax; the exact rendering of containers is immaterial to every
theorem below (none exercises a container search term), so it is
abbreviated. -/
def JsonVal.fstr : JsonVal → String
  | .str s => s
  | .num n => toString n
  | .bool true => "True"
  | .bool false => "False"
  | .null => "None"
  | .arr _ => "[list]"
  | .obj _ => "\x7bdict\x7d"

/-! ## Persistence model (`backend/models.py`) -/

/-- A row of the `questions` table. `Question.format()` serialises
`category` as `self.category.id`, which by the `back_populates`
relationship equals `category_id`; the embedding therefore keeps only
`category_id`. -/
structure Question where
  id : Nat
  question : String
  answer : String
  difficulty : Int
  category_id : Nat
deriving DecidableEq, Repr

/-- A row of the `categories` table. -/
structure Category where
  id : Nat
  type : String
deriving DecidableEq, Repr

/-- The database state: the two tables, in insertion order. -/
structure DB where
  questions : List Question
  categories : List Category
deriving DecidableEq, Repr

/-- Outcome of a handler: a success status with a JSON body, or an abort
status handed to the error mapper. -/
inductive Resp (α : Type) where
  | ok (status : Nat) (body : α)
  | fail (status : Nat)
deriving DecidableEq, Repr

/-! ## Payload validation schemas

The two schema constants are interpreted per the json-schema semantics the
`jsonschema` library implements for the keywords they use:
`type`, `properties` (a present key must satisfy its subschema),
`required`, `minLength` and `pattern` (both constrain string instances
only), `items`, `uniqueItems`, and `oneOf` (exactly one subschema
validates). The key `types` (plural) appearing in the source is not a
json-schema keyword and is ignored by the validator.
-/

/-- The regex `^\d+$`: a non-empty all-digits string. -/
def isDigitString (s : String) : Bool :=
  !(s == "") && s.toList.all Char.isDigit

/-- The subschema `{'types': [...], 'pattern': '^\d+$'}` used for
`difficulty`, `category` and `quiz_category.id`. `types` is an unknown
keyword and is ignored; `pattern` constrains only string instances, so any
non-string instance passes. -/
def digitPatternOk : JsonVal → Bool
  | .str s => isDigitString s
  | _ => true

/-- The subschema `{'type': 'string', 'minLength': 1}`. -/
def nonEmptyStringOk : JsonVal → Bool
  | .str s => 1 ≤ s.length
  | _ => false

/-- The subschema `{'type': 'string'}`. -/
def stringOk : JsonVal → Bool
  | .str _ => true
  | _ => false

/-- `properties` keyword for one key: absent passes, present must satisfy
the subschema. -/
def propOk (o : List (String × JsonVal)) (k : String) (sub : JsonVal → Bool) : Bool :=
  match jsonGet o k with
  | none => true
  | some v => sub v

/-- `required` keyword for one key. -/
def requiredOk (o : List (String × JsonVal)) (k : String) : Bool :=
  (jsonGet o k).isSome

/-- First branch of `create_questions_schema.oneOf`: the create shape. -/
def createBranchOk (o : List (String × JsonVal)) : Bool :=
  propOk o "question" nonEmptyStringOk &&
  propOk o "answer" nonEmptyStringOk &&
  propOk o "difficulty" digitPatternOk &&
  propOk o "category" digitPatternOk &&
  requiredOk o "question" && requiredOk o "answer" &&
  requiredOk o "difficulty" && requiredOk o "category"

/-- Second branch of `create_questions_schema.oneOf`: the search shape. -/
def searchBranchOk (o : List (String × JsonVal)) : Bool :=
  propOk o "searchTerm" stringOk && requiredOk o "searchTerm"

/-- `create_questions_schema`: a JSON object satisfying exactly one of the
two `oneOf` branches. -/
def create_questions_schema_validate : JsonVal → Bool
  | .obj o => (createBranchOk o && !searchBranchOk o) ||
              (!createBranchOk o && searchBranchOk o)
  | _ => false

/-- JSON equality as used by `uniqueItems`, restricted to numbers. In
`get_quizzes_schema` the `uniqueItems` keyword is conjoined with
`items: {'type': 'number'}`, so its value only matters on arrays whose
elements are all numbers; on any other array the conjunction is already
false. Number equality is numeric equality. -/
def numEq : JsonVal → JsonVal → Bool
  | .num a, .num b => a == b
  | _, _ => false

/-- `uniqueItems`: no element equals a later element. -/
def uniqueBy (eq : JsonVal → JsonVal → Bool) : List JsonVal → Bool
  | [] => true
  | x :: xs => !(xs.any (eq x)) && uniqueBy eq xs

/-- The `previous_questions` subschema: an array of numbers with
`uniqueItems`. -/
def previousQuestionsOk : JsonVal → Bool
  | .arr items =>
      items.all (fun v => match v with | .num _ => true | _ => false) &&
      uniqueBy numEq items
  | _ => false

/-- The `quiz_category` subschema: an object that must carry a string
`type` and a digit-pattern `id`. -/
def quizCategoryOk : JsonVal → Bool
  | .obj o => propOk o "type" stringOk && propOk o "id" digitPatternOk &&
              requiredOk o "type" && requiredOk o "id"
  | _ => false

/-- `get_quizzes_schema`. -/
def get_quizzes_schema_validate : JsonVal → Bool
  | .obj o => propOk o "previous_questions" previousQuestionsOk &&
              propOk o "quiz_category" quizCategoryOk &&
              requiredOk o "previous_questions" && requiredOk o "quiz_category"
  | _ => false

/-! ## SQL LIKE matching and substring containment

`create_questions` filters with `Question.question.ilike(f'%{search_term}%')`.
SQL `LIKE` matches the whole string against the pattern, where `%` matches
any sequence, `_` matches any single character, and a backslash escapes the
following character (the PostgreSQL default escape). `ILIKE` is the
case-insensitive variant, modelled by lowercasing both pattern and text;
`%` is unaffected by lowercasing, so the lowered pattern is
`'%' :: lower(term) ++ ['%']`.
-/

/-- All suffixes of a string, longest first (ending with `[]`). -/
def tailsList : List Char → List (List Char)
  | [] => [[]]
  | c :: s => (c :: s) :: tailsList s

/-- `needle` is an initial run of `hay`. -/
def startsWithChars : List Char → List Char → Bool
  | [], _ => true
  | _ :: _, [] => false
  | a :: as, b :: bs => a == b && startsWithChars as bs

/-- Spec-side notion: `needle` occurs in `hay` as a contiguous substring. -/
def containsSub (needle hay : List Char) : Bool :=
  (tailsList hay).any (fun t => startsWithChars needle t)

/-- SQL LIKE full-string matching. A leading `%` consumes any suffix of the
text; a leading backslash makes the next pattern character literal; any
other leading character consumes exactly one text character (`_` matches
any). The pattern built by the handler always ends in `%`, so the
trailing-escape error case of PostgreSQL is unreachable and modelled as a
non-match. -/
def likeMatch : List Char → List Char → Bool
  | [], s => s.isEmpty
  | p :: ps, s =>
    if p = '%' then
      (tailsList s).any (fun t => likeMatch ps t)
    else if p = '\\' then
      match ps, s with
      | e :: ps2, d :: s2 => e == d && likeMatch ps2 s2
      | _, _ => false
    else
      match s with
      | [] => false
      | d :: s2 => (p == '_' || p == d) && likeMatch ps s2

/-- Characters of a string, lowercased. -/
def lowerChars (s : String) : List Char :=
  s.toList.map Char.toLower

/-- `text ILIKE '%term%'`. -/
def ilikeQ (term text : String) : Bool :=
  likeMatch ('%' :: (lowerChars term ++ ['%'])) (lowerChars text)

/-- The term contains none of the LIKE metacharacters `%`, `_`, `\`. -/
def noLikeMeta (cs : List Char) : Bool :=
  cs.all (fun c => !(c == '%') && !(c == '_') && !(c == '\\'))

/-! ## Python int() parsing

`request.args.get('page', 1, type=int)` applies `int` to the raw query
value and silently falls back to the default `1` when the conversion
raises. `int(str)` strips surrounding whitespace, allows one optional
sign, and then requires digits optionally separated by single interior
underscores.
-/

/-- Strip leading and trailing whitespace. -/
def stripWs (cs : List Char) : List Char :=
  ((cs.dropWhile Char.isWhitespace).reverse.dropWhile Char.isWhitespace).reverse

/-- Digit run acceptable to Python `int`: non-empty digits, single
underscores allowed strictly between digits. -/
def pyDigits : List Char → Bool
  | [] => false
  | [c] => c.isDigit
  | c :: '_' :: rest => c.isDigit && pyDigits rest
  | c :: rest => c.isDigit && pyDigits rest

/-- Numeric value of a digit run, ignoring underscores. -/
def digitsVal (cs : List Char) : Nat :=
  cs.foldl (fun a c => if c = '_' then a else 10 * a + (c.toNat - 48)) 0

/-- Python `int(s)`: `none` when the conversion raises `ValueError`. -/
def pyIntParse (s : String) : Option Int :=
  match stripWs s.toList with
  | '+' :: rest => if pyDigits rest then some (digitsVal rest : Int) else none
  | '-' :: rest => if pyDigits rest then some (-(digitsVal rest : Int)) else none
  | rest => if pyDigits rest then some (digitsVal rest : Int) else none

/-- Python `int(v)` on a parsed JSON value: numbers are themselves, strings
are parsed, booleans coerce to 0/1, anything else raises (`none`). -/
def pyIntOfJson : JsonVal → Option Int
  | .num n => some n
  | .str s => pyIntParse s
  | .bool true => some 1
  | .bool false => some 0
  | _ => none

/-! ## Route handlers (`backend/flaskr/__init__.py`) -/

def QUESTIONS_PER_PAGE : Nat := 10

/-- `a.id ≤ b.id`, the order of `Question.query.order_by(Question.id)`. -/
def idLE (a b : Question) : Prop := a.id ≤ b.id

instance : DecidableRel idLE := fun a b => inferInstanceAs (Decidable (a.id ≤ b.id))

instance : IsTotal Question idLE := ⟨fun a b => Nat.le_total a.id b.id⟩

instance : IsTrans Question idLE := ⟨fun _ _ _ => Nat.le_trans⟩

/-- The question table ordered by ascending id. -/
def sortById (l : List Question) : List Question :=
  l.insertionSort idLE

/-- `query.paginate(page, per_page)` with the default `error_out=True`:
abort 404 when `page < 1`, slice `(page-1)*per_page ..< page*per_page`,
abort 404 when the slice is empty and the page is not the first, otherwise
return the items and the total row count. -/
def paginate (l : List Question) (page : Int) (perPage : Nat) :
    Option (List Question × Nat) :=
  if page < 1 then none
  else
    let items := (l.drop ((page - 1).toNat * perPage)).take perPage
    if items.isEmpty && !(page == 1) then none
    else some (items, l.length)

/-- Success body of `GET /api/v1.0/questions`. `currentCategory` is always
serialised as null. -/
structure QuestionsPageBody where
  questions : List Question
  totalQuestions : Nat
  categories : List (Nat × String)
  currentCategory : Option String
deriving DecidableEq, Repr

/-- The `get_questions` handler body, after the page argument has been
read: paginate the id-ordered question table, then abort 404 when the
category table is empty, else answer 200. -/
def get_questions_core (db : DB) (page : Int) : Resp QuestionsPageBody :=
  match paginate (sortById db.questions) page QUESTIONS_PER_PAGE with
  | none => .fail 404
  | some (items, total) =>
    if db.categories.isEmpty then .fail 404
    else .ok 200 ⟨items, total, db.categories.map (fun c => (c.id, c.type)), none⟩

/-- `request.args.get('page', 1, type=int)`: missing key or failed `int`
conversion silently yields the default 1. -/
def pageArg (arg : Option String) : Int :=
  match arg with
  | none => 1
  | some s => (pyIntParse s).getD 1

/-- `GET /api/v1.0/questions` with the raw `page` query parameter. -/
def get_questions (db : DB) (arg : Option String) : Resp QuestionsPageBody :=
  get_questions_core db (pageArg arg)

/-- Success body of `POST /api/v1.0/questions`. Search mode answers the
matched rows, their count, and a null current category; create mode
answers an empty object. -/
inductive CreateQuestionsBody where
  | searchResults (questions : List Question) (totalQuestions : Nat)
      (currentCategory : Option String)
  | created
deriving DecidableEq, Repr

/-- The search branch of `create_questions`: rows whose `question` text
matches `ILIKE '%term%'`; abort 404 on zero matches. -/
def questions_search (db : DB) (term : String) : Resp CreateQuestionsBody :=
  let found := db.questions.filter (fun q => ilikeQ term q.question)
  if found.isEmpty then .fail 404
  else .ok 200 (.searchResults found found.length none)

/-- `Category.query.get_or_404(value)` on the raw payload value of
`category`. A missing key (`None`) matches no row, hence 404; an integral
value (number, digit string, boolean) is the primary key to look up, 404
when no category has it; any other value cannot be coerced to the integer
primary-key column and raises in the driver, an unhandled fault (500). -/
def category_get_or_404 (db : DB) (v : Option JsonVal) : Except Nat Category :=
  match v with
  | none => .error 404
  | some j =>
    match pyIntOfJson j with
    | none => .error 500
    | some i =>
      match db.categories.find? (fun c => decide ((c.id : Int) = i)) with
      | none => .error 404
      | some c => .ok c

/-- The `create_questions` handler after schema validation: a truthy
`searchTerm` dispatches to search; otherwise resolve the category
(404 when absent), then insert — 201 on a successful commit, 422 with
rollback when the store raises. -/
def create_questions_handler (db : DB) (o : List (String × JsonVal))
    (commitOk : Bool) : Resp CreateQuestionsBody :=
  let st := jsonGet o "searchTerm"
  if (match st with | some v => v.truthy | none => false) then
    questions_search db ((st.getD .null).fstr)
  else
    match category_get_or_404 db (jsonGet o "category") with
    | .error e => .fail e
    | .ok _ => if commitOk then .ok 201 .created else .fail 422

/-- `POST /api/v1.0/questions`: `expects_json(create_questions_schema)`
aborts 400 on an invalid body, then the handler runs. A non-object body
never validates, so the inner non-object branch is unreachable. -/
def create_questions (db : DB) (body : JsonVal) (commitOk : Bool) :
    Resp CreateQuestionsBody :=
  if create_questions_schema_validate body then
    match body with
    | .obj o => create_questions_handler db o commitOk
    | _ => .fail 500
  else .fail 400

/-- `DELETE /api/v1.0/questions/{id}`: `get_or_404` the row, then delete
and commit — 202 with an empty body on success; on a store failure, roll
back (leaving the table unchanged) and abort 422. -/
def delete_questions (db : DB) (id : Nat) (commitOk : Bool) :
    Resp Unit × DB :=
  match db.questions.find? (fun q => decide (q.id = id)) with
  | none => (.fail 404, db)
  | some _ =>
    if commitOk then
      (.ok 202 (),
       { db with questions := db.questions.eraseP (fun q => decide (q.id = id)) })
    else (.fail 422, db)

/-- Body of `POST /api/v1.0/quizzes`: the chosen question, or null when
the pool is exhausted. -/
structure QuizBody where
  question : Option Question
deriving DecidableEq, Repr

/-- `random.choice`: some element of a non-empty list, the position
supplied by the random source `r`. -/
def pickRandom (q0 : Question) (rest : List Question) (r : Nat) : Question :=
  (q0 :: rest).get ⟨r % (rest.length + 1), Nat.mod_lt _ (Nat.succ_pos _)⟩

/-- Answer 201 with a random pool element, or with null when the pool is
empty. -/
def quizRespond (pool : List Question) (r : Nat) : Resp QuizBody :=
  match pool with
  | [] => .ok 201 ⟨none⟩
  | q0 :: rest => .ok 201 ⟨some (pickRandom q0 rest r)⟩

/-- The `get_quizzes` handler after schema validation and `int()` of the
category id. For a positive id, resolve the category (404 when missing)
and pool its questions (`category.questions` is exactly the rows with that
`category_id`) not previously asked; otherwise pool every question not
previously asked. -/
def get_quizzes (db : DB) (previous : List Int) (cid : Int) (r : Nat) :
    Resp QuizBody :=
  if cid > 0 then
    match db.categories.find? (fun c => decide ((c.id : Int) = cid)) with
    | none => .fail 404
    | some _ =>
      quizRespond
        (db.questions.filter
          (fun q => decide ((q.category_id : Int) = cid) &&
                    !(decide ((q.id : Int) ∈ previous)))) r
  else
    quizRespond
      (db.questions.filter (fun q => !(decide ((q.id : Int) ∈ previous)))) r

/-- The ids of the `previous_questions` array. Post-validation the value
is an array of numbers; any other shape contributes nothing. -/
def jsonIds : Option JsonVal → List Int
  | some (.arr items) =>
      items.filterMap (fun v => match v with | .num n => some n | _ => none)
  | _ => []

/-- `POST /api/v1.0/quizzes`: `expects_json(get_quizzes_schema)` aborts
400 on an invalid body; then the handler reads `previous_questions` and
`int(quiz_category.id)`. A shape the schema cannot produce (missing or
non-integral id after validation, non-object body) would raise, an
unhandled fault (500). -/
def quizzes_endpoint (db : DB) (body : JsonVal) (r : Nat) : Resp QuizBody :=
  if get_quizzes_schema_validate body then
    match body with
    | .obj o =>
      match jsonGet o "quiz_category" with
      | some (.obj co) =>
        match jsonGet co "id" with
        | some j =>
          match pyIntOfJson j with
          | some cid => get_quizzes db (jsonIds (jsonGet o "previous_questions")) cid r
          | none => .fail 500
        | none => .fail 500
      | _ => .fail 500
    | _ => .fail 500
  else .fail 400

/-! ## Error mapper -/

/-- The error handlers `create_app` registers, as a map from an abort
status to the JSON body the client receives. Handlers are registered for
400 (whose message is the schema validator's own message when the abort
carries one), 404, 405 and 422 only; any other status — in particular a
500 from an unhandled exception — has no registered handler, falls through
to the framework default, and gets no body from this app (`none`). -/
def errorHandlerBody (status : Nat) (validationMessage : Option String) :
    Option (Nat × String) :=
  if status = 400 then some (400, validationMessage.getD "bad request")
  else if status = 404 then some (404, "resource not found")
  else if status = 405 then some (405, "method not allowed")
  else if status = 422 then some (422, "unprocessable entity")
  else none

/-! ## Sample fixtures for concrete instances -/

def qScience1 : Question := ⟨1, "What is H2O?", "Water", 1, 1⟩

def qScience2 : Question := ⟨2, "What planet is red?", "Mars", 2, 1⟩

def qArt3 : Question := ⟨3, "Who painted the Mona Lisa?", "Da Vinci", 3, 2⟩

def dbSample : DB := ⟨[qScience1, qScience2, qArt3], [⟨1, "Science"⟩, ⟨2, "Art"⟩]⟩

/-! ## Shared helper lemmas -/

/-- A schema-valid `POST /questions` body with a truthy `searchTerm` is
dispatched to the search branch, whatever else the payload carries. -/
theorem create_search_dispatch (db : DB) (o : List (String × JsonVal))
    (commitOk : Bool) (v : JsonVal)
    (hval : create_questions_schema_validate (.obj o) = true)
    (hst : jsonGet o "searchTerm" = some v)
    (ht : v.truthy = true) :
    create_questions db (.obj o) commitOk = questions_search db v.fstr := by
  unfold create_questions create_questions_handler
  rw [hval]
  simp only [if_true, hst, ht, Option.getD_some]

/-- The search branch never signals 400. -/
theorem questions_search_ne_400 (db : DB) (term : String) :
    questions_search db term ≠ .fail 400 := by
  unfold questions_search
  by_cases h : (db.questions.filter (fun q => ilikeQ term q.question)).isEmpty <;>
    simp [h]

/-! ## Claim theorems -/

/-- C3 counterexample: `create_app` registers no 500 handler, so an
unhandled fault is not translated into
`{error: 500, message: "internal server error"}` — the mapper yields no
body at all for status 500. -/
theorem errorHandler_500_unmapped :
    errorHandlerBody 500 none = none ∧
    errorHandlerBody 500 none ≠ some (500, "internal server error") := by
  decide

/-- C3 (amended): the error mapper translates exactly the four registered
statuses 400, 404, 405 and 422 into their fixed JSON bodies; any other
status — in particular the 500 of an unhandled fault — is not translated
by the application and falls through to the framework default. -/
theorem errorHandler_maps_registered_only (status : Nat) (msg : Option String) :
    ((errorHandlerBody status msg).isSome ↔
       status = 400 ∨ status = 404 ∨ status = 405 ∨ status = 422) ∧
    errorHandlerBody 400 msg = some (400, msg.getD "bad request") ∧
    errorHandlerBody 404 msg = some (404, "resource not found") ∧
    errorHandlerBody 405 msg = some (405, "method not allowed") ∧
    errorHandlerBody 422 msg = some (422, "unprocessable entity") ∧
    errorHandlerBody 500 msg = none := by
  refine ⟨?_, rfl, rfl, rfl, rfl, rfl⟩
  unfold errorHandlerBody
  by_cases h4 : status = 400 <;> by_cases h44 : status = 404 <;>
    by_cases h45 : status = 405 <;> by_cases h42 : status = 422 <;>
    simp [h4, h44, h45, h42]

/-- C3 (amended) at a concrete fault: status 500 gets no app-level body,
while 404 gets the table's body. -/
theorem errorHandler_maps_registered_only_witness :
    errorHandlerBody 500 none = none ∧
    errorHandlerBody 404 none = some (404, "resource not found") :=
  ⟨(errorHandler_maps_registered_only 500 none).2.2.2.2.2,
   (errorHandler_maps_registered_only 404 none).2.2.1⟩

/-- The body `{"searchTerm": ""}`. -/
def emptySearchBody : JsonVal := .obj [("searchTerm", .str "")]

/-- C9: the body `{"searchTerm": ""}` passes schema validation (it
satisfies exactly the search branch of the `oneOf`), but the empty string
is falsy, so the handler takes the create branch, where
`Category.query.get_or_404` on the absent `category` key aborts 404 —
neither a search result nor a 400. -/
theorem create_questions_empty_searchTerm (db : DB) (commitOk : Bool) :
    create_questions_schema_validate emptySearchBody = true ∧
    (JsonVal.str "").truthy = false ∧
    create_questions db emptySearchBody commitOk = .fail 404 :=
  ⟨rfl, rfl, rfl⟩

/-- C10: a `page` query value that Python `int()` cannot parse is silently
replaced by the default 1: the response is that of page 1, identical to a
request with no `page` parameter. -/
theorem get_questions_unparseable_page (db : DB) (s : String)
    (h : pyIntParse s = none) :
    get_questions db (some s) = get_questions_core db 1 ∧
    get_questions db (some s) = get_questions db none := by
  simp only [get_questions, pageArg, h, Option.getD_none]
  exact ⟨trivial, trivial⟩

/-- C10 at the concrete parameter `page=abc` against the sample store. -/
theorem get_questions_unparseable_page_witness :
    pyIntParse "abc" = none ∧
    (get_questions dbSample (some "abc") = get_questions_core dbSample 1 ∧
     get_questions dbSample (some "abc") = get_questions dbSample none) :=
  ⟨by decide, get_questions_unparseable_page dbSample "abc" (by decide)⟩

/-- A payload carrying both a complete, valid create shape and a truthy
`searchTerm`. -/
def createAndSearchPayload : List (String × JsonVal) :=
  [("question", .str "Who?"), ("answer", .str "Me"), ("difficulty", .str "1"),
   ("category", .str "1"), ("searchTerm", .str "abc")]

/-- C4 counterexample: a payload whose `searchTerm` is truthy and whose
create fields are all present and valid satisfies both `oneOf` branches,
so the schema rejects it with 400 before the handler runs — search mode
does not take precedence for such a payload; it is rejected precisely
because the create fields are valid. -/
theorem create_questions_combined_payload_400 :
    (JsonVal.str "abc").truthy = true ∧
    jsonGet createAndSearchPayload "searchTerm" = some (.str "abc") ∧
    createBranchOk createAndSearchPayload = true ∧
    searchBranchOk createAndSearchPayload = true ∧
    create_questions dbSample (.obj createAndSearchPayload) true = .fail 400 :=
  ⟨rfl, rfl, rfl, rfl, rfl⟩

/-- C4 (amended): among payloads that pass schema validation, a truthy
`searchTerm` always dispatches to search mode — whatever create fields
accompany it — and such a request is never answered 400; but a payload
satisfying the complete create shape and carrying a `searchTerm` string
fails the `oneOf` validation and is rejected 400 before dispatch, so the
precedence rule holds only among schema-valid payloads. -/
theorem create_questions_search_precedence (db : DB)
    (o : List (String × JsonVal)) (commitOk : Bool) (v : JsonVal)
    (hval : create_questions_schema_validate (.obj o) = true)
    (hst : jsonGet o "searchTerm" = some v)
    (ht : v.truthy = true) :
    create_questions db (.obj o) commitOk = questions_search db v.fstr ∧
    create_questions db (.obj o) commitOk ≠ .fail 400 := by
  have hd := create_search_dispatch db o commitOk v hval hst ht
  exact ⟨hd, hd ▸ questions_search_ne_400 db v.fstr⟩

/-- C4 (amended) at a concrete search request with a stray create field. -/
theorem create_questions_search_precedence_witness :
    create_questions dbSample
        (.obj [("searchTerm", .str "planet"), ("answer", .str "x")]) true
      = questions_search dbSample "planet" ∧
    create_questions dbSample
        (.obj [("searchTerm", .str "planet"), ("answer", .str "x")]) true
      ≠ .fail 400 :=
  create_questions_search_precedence dbSample
    [("searchTerm", .str "planet"), ("answer", .str "x")] true (.str "planet")
    rfl rfl rfl

/-- A non-null quiz answer is drawn from the pool, with status 201. -/
theorem quizRespond_ok_some (pool : List Question) (r s : Nat) (q : Question)
    (h : quizRespond pool r = .ok s ⟨some q⟩) : q ∈ pool ∧ s = 201 := by
  cases pool with
  | nil => simp [quizRespond] at h
  | cons q0 rest =>
    simp only [quizRespond, Resp.ok.injEq, QuizBody.mk.injEq,
      Option.some.injEq] at h
    obtain ⟨hs, hq⟩ := h
    exact ⟨hq ▸ List.get_mem _ _ _, hs.symm⟩

/-- C1: for a schema-valid quiz request, a non-null answered question is
never one whose id appears in `previous_questions`, and its status is 201;
and when the previously-asked ids cover every question eligible for the
request (the resolved category's questions, or the whole table when no
positive category id is given), the answer is `{question: null}` with
status 201 rather than an error. -/
theorem get_quizzes_excludes_previous (db : DB) (previous : List Int)
    (cid : Int) (r : Nat) :
    (∀ s q, get_quizzes db previous cid r = .ok s ⟨some q⟩ →
       ((q.id : Int) ∈ previous → False) ∧ s = 201) ∧
    ((cid > 0 → ∃ c ∈ db.categories, (c.id : Int) = cid) →
     (∀ q ∈ db.questions, (cid > 0 → (q.category_id : Int) = cid) →
        (q.id : Int) ∈ previous) →
     get_quizzes db previous cid r = .ok 201 ⟨none⟩) := by
  constructor
  · intro s q h
    unfold get_quizzes at h
    by_cases hc : cid > 0
    · rw [if_pos hc] at h
      cases hfind : db.categories.find? (fun c => decide ((c.id : Int) = cid)) with
      | none => rw [hfind] at h; exact absurd h (by simp)
      | some c =>
        rw [hfind] at h
        obtain ⟨hmem, hs⟩ := quizRespond_ok_some _ _ _ _ h
        rw [List.mem_filter] at hmem
        obtain ⟨-, hp⟩ := hmem
        simp only [Bool.and_eq_true, decide_eq_true_eq, Bool.not_eq_true',
          decide_eq_false_iff_not] at hp
        exact ⟨hp.2, hs⟩
    · rw [if_neg hc] at h
      obtain ⟨hmem, hs⟩ := quizRespond_ok_some _ _ _ _ h
      rw [List.mem_filter] at hmem
      simp only [Bool.not_eq_true', decide_eq_false_iff_not] at hmem
      exact ⟨hmem.2, hs⟩
  · intro hcat hcov
    unfold get_quizzes
    by_cases hc : cid > 0
    · rw [if_pos hc]
      obtain ⟨c, hcmem, hcid⟩ := hcat hc
      have hsome : (db.categories.find?
          (fun c => decide ((c.id : Int) = cid))).isSome := by
        rw [List.find?_isSome]
        exact ⟨c, hcmem, by simp [hcid]⟩
      cases hfind : db.categories.find? (fun c => decide ((c.id : Int) = cid)) with
      | none => rw [hfind] at hsome; cases hsome
      | some c2 =>
        have hnil : db.questions.filter
            (fun q => decide ((q.category_id : Int) = cid) &&
                      !(decide ((q.id : Int) ∈ previous))) = [] := by
          rw [List.filter_eq_nil_iff]
          intro q hq
          simp only [Bool.and_eq_true, decide_eq_true_eq, Bool.not_eq_true',
            decide_eq_false_iff_not, not_and, not_not]
          intro hqc
          exact hcov q hq (fun _ => hqc)
        simp only [hnil]
        rfl
    · rw [if_neg hc]
      have hnil : db.questions.filter
          (fun q => !(decide ((q.id : Int) ∈ previous))) = [] := by
        rw [List.filter_eq_nil_iff]
        intro q hq
        simp only [Bool.not_eq_true', decide_eq_false_iff_not, not_not]
        exact hcov q hq (fun h => absurd h hc)
      rw [hnil]
      rfl

/-- C1 at a concrete exhausted pool: both Science questions of the sample
store have been asked, so a Science-scoped quiz request answers null with
status 201. -/
theorem get_quizzes_excludes_previous_witness :
    get_quizzes dbSample [1, 2] 1 0 = .ok 201 ⟨none⟩ :=
  (get_quizzes_excludes_previous dbSample [1, 2] 1 0).2 (by decide) (by decide)

/-- C2: a quiz request with a positive category id fails 404 when no such
category exists; when it succeeds with a question, that question belongs to
the requested category; and with category id 0 the pool is the whole
question table minus the previously-asked ids, so an answered question is
some table row whose id is not excluded. -/
theorem get_quizzes_category_scope (db : DB) (previous : List Int)
    (cid : Int) (r : Nat) :
    (cid > 0 → (∀ c ∈ db.categories, (c.id : Int) ≠ cid) →
       get_quizzes db previous cid r = .fail 404) ∧
    (cid > 0 → ∀ s q, get_quizzes db previous cid r = .ok s ⟨some q⟩ →
       (q.category_id : Int) = cid ∧ q ∈ db.questions) ∧
    (get_quizzes db previous 0 r =
       quizRespond (db.questions.filter
         (fun q => !(decide ((q.id : Int) ∈ previous)))) r) ∧
    (∀ s q, get_quizzes db previous 0 r = .ok s ⟨some q⟩ →
       q ∈ db.questions ∧ ((q.id : Int) ∈ previous → False)) := by
  refine ⟨?_, ?_, ?_, ?_⟩
  · intro hc hnone
    unfold get_quizzes
    rw [if_pos hc]
    have hfind : db.categories.find?
        (fun c => decide ((c.id : Int) = cid)) = none := by
      rw [List.find?_eq_none]
      intro c hcmem
      simp [hnone c hcmem]
    rw [hfind]
  · intro hc s q h
    unfold get_quizzes at h
    rw [if_pos hc] at h
    cases hfind : db.categories.find? (fun c => decide ((c.id : Int) = cid)) with
    | none => rw [hfind] at h; exact absurd h (by simp)
    | some c =>
      rw [hfind] at h
      obtain ⟨hmem, -⟩ := quizRespond_ok_some _ _ _ _ h
      rw [List.mem_filter] at hmem
      obtain ⟨hdb, hp⟩ := hmem
      simp only [Bool.and_eq_true, decide_eq_true_eq] at hp
      exact ⟨hp.1, hdb⟩
  · unfold get_quizzes
    rw [if_neg (by decide)]
  · intro s q h
    unfold get_quizzes at h
    rw [if_neg (by decide)] at h
    obtain ⟨hmem, -⟩ := quizRespond_ok_some _ _ _ _ h
    rw [List.mem_filter] at hmem
    simp only [Bool.not_eq_true', decide_eq_false_iff_not] at hmem
    exact hmem

/-- C2 at a concrete missing category: the sample store has no category 5,
so a category-5 quiz request fails 404. -/
theorem get_quizzes_category_scope_witness :
    get_quizzes dbSample [] 5 0 = .fail 404 :=
  (get_quizzes_category_scope dbSample [] 5 0).1 (by decide) (by decide)

/-- Erasing the row with primary key `id` from a table with pairwise
distinct ids keeps exactly the rows with a different id. -/
theorem mem_eraseP_id (id : Nat) (l : List Question)
    (hnd : (l.map Question.id).Nodup) (q0 : Question) (h0 : q0 ∈ l)
    (hid : q0.id = id) (q : Question) :
    q ∈ l.eraseP (fun q => decide (q.id = id)) ↔ q ∈ l ∧ q.id ≠ id := by
  induction l with
  | nil => cases h0
  | cons a t ih =>
    simp only [List.map_cons, List.nodup_cons] at hnd
    obtain ⟨ha, hndt⟩ := hnd
    by_cases hcase : a.id = id
    · rw [List.eraseP_cons_of_pos (by simp [hcase])]
      constructor
      · intro hqt
        refine ⟨List.mem_cons_of_mem _ hqt, fun hqid => ?_⟩
        exact ha (by
          rw [hcase, ← hqid]
          exact List.mem_map_of_mem Question.id hqt)
      · rintro ⟨hq, hqid⟩
        cases List.mem_cons.mp hq with
        | inl h => exact absurd (h ▸ hcase) hqid
        | inr h => exact h
    · have h0t : q0 ∈ t := by
        cases List.mem_cons.mp h0 with
        | inl h => exact absurd (by rw [← h]; exact hid) hcase
        | inr h => exact h
      rw [List.eraseP_cons_of_neg (by simp [hcase])]
      constructor
      · intro hq
        cases List.mem_cons.mp hq with
        | inl h => exact ⟨h ▸ List.mem_cons_self a t, h ▸ hcase⟩
        | inr h =>
          obtain ⟨hmem, hne⟩ := (ih hndt h0t).mp h
          exact ⟨List.mem_cons_of_mem _ hmem, hne⟩
      · rintro ⟨hq, hne⟩
        cases List.mem_cons.mp hq with
        | inl h => exact h ▸ List.mem_cons_self a _
        | inr h => exact List.mem_cons_of_mem _ ((ih hndt h0t).mpr ⟨h, hne⟩)

/-- C7: deleting a question id absent from the table answers 404 and
leaves the store unchanged; a present id with a failing commit answers 422
with the store rolled back unchanged; a present id with a successful
commit answers 202 with an empty body and removes exactly that row
(assuming the primary keys are pairwise distinct, as the store
guarantees). -/
theorem delete_questions_contract (db : DB) (id : Nat) (commitOk : Bool)
    (hnd : (db.questions.map Question.id).Nodup) :
    ((∀ q ∈ db.questions, q.id ≠ id) →
       delete_questions db id commitOk = (.fail 404, db)) ∧
    (∀ q0, q0 ∈ db.questions → q0.id = id → commitOk = false →
       delete_questions db id commitOk = (.fail 422, db)) ∧
    (∀ q0, q0 ∈ db.questions → q0.id = id → commitOk = true →
       ∃ db2, delete_questions db id commitOk = (.ok 202 (), db2) ∧
         db2.categories = db.categories ∧
         (∀ q, q ∈ db2.questions ↔ q ∈ db.questions ∧ q.id ≠ id) ∧
         db2.questions.length = db.questions.length - 1) := by
  refine ⟨?_, ?_, ?_⟩
  · intro habsent
    unfold delete_questions
    have hfind : db.questions.find? (fun q => decide (q.id = id)) = none := by
      rw [List.find?_eq_none]
      intro q hq
      simp [habsent q hq]
    rw [hfind]
  · intro q0 h0 hid hcommit
    unfold delete_questions
    have hsome : (db.questions.find? (fun q => decide (q.id = id))).isSome := by
      rw [List.find?_isSome]
      exact ⟨q0, h0, by simp [hid]⟩
    cases hfind : db.questions.find? (fun q => decide (q.id = id)) with
    | none => rw [hfind] at hsome; cases hsome
    | some q1 => subst hcommit; rfl
  · intro q0 h0 hid hcommit
    have hsome : (db.questions.find? (fun q => decide (q.id = id))).isSome := by
      rw [List.find?_isSome]
      exact ⟨q0, h0, by simp [hid]⟩
    cases hfind : db.questions.find? (fun q => decide (q.id = id)) with
    | none => rw [hfind] at hsome; cases hsome
    | some q1 =>
      refine ⟨⟨db.questions.eraseP (fun q => decide (q.id = id)), db.categories⟩,
        ?_, rfl, ?_, ?_⟩
      · unfold delete_questions
        rw [hfind, hcommit]
        rfl
      · exact mem_eraseP_id id db.questions hnd q0 h0 hid
      · exact List.length_eraseP_of_mem h0 (by simp [hid])

/-- C7 at concrete inputs: deleting the absent id 99 from the sample store
answers 404 and leaves it unchanged. -/
theorem delete_questions_contract_witness :
    delete_questions dbSample 99 true = (.fail 404, dbSample) :=
  (delete_questions_contract dbSample 99 true (by decide)).1 (by decide)

/-- Reading the ids back from an array of JSON numbers is the identity. -/
theorem filterMap_num (prev : List Int) :
    (prev.map JsonVal.num).filterMap
      (fun v => match v with | .num n => some n | _ => none) = prev := by
  induction prev with
  | nil => rfl
  | cons a t ih => simp [List.filterMap_cons, ih]

/-- An array of JSON numbers passes the `items: {'type':'number'}` check. -/
theorem allNum_map (prev : List Int) :
    (prev.map JsonVal.num).all
      (fun v => match v with | .num _ => true | _ => false) = true := by
  induction prev with
  | nil => rfl
  | cons a t ih => simp [ih]

/-- The body the claim describes as the required quiz shape, with the
`type` field the schema actually also demands. -/
def quizBodyOf (prev : List Int) (ctype : String) (cid : Int) : JsonVal :=
  .obj [("previous_questions", .arr (prev.map JsonVal.num)),
        ("quiz_category", .obj [("type", .str ctype), ("id", .num cid)])]

/-- The minimal body of the claim: `previous_questions` ids plus a
`quiz_category` carrying only an `id`. -/
def quizBodyNoType : JsonVal :=
  .obj [("previous_questions", .arr [.num 1, .num 2]),
        ("quiz_category", .obj [("id", .num 0)])]

/-- C8 counterexample: a body whose `quiz_category` carries an `id` but no
`type` fails `get_quizzes_schema` (which requires both) and is rejected
400 — `quiz_category` is not only required to carry at least an `id`. -/
theorem get_quizzes_schema_rejects_no_type :
    get_quizzes_schema_validate quizBodyNoType = false ∧
    quizzes_endpoint dbSample quizBodyNoType 0 = .fail 400 :=
  ⟨rfl, rfl⟩

/-- C8 (amended): the schema demands `previous_questions` (an array of
unique numbers) and a `quiz_category` carrying both a string `type` and an
`id`; every body of that shape passes validation and is dispatched to the
quiz handler rather than rejected with BadRequest. A `quiz_category` with
only an `id` is rejected 400. -/
theorem get_quizzes_schema_accepted_shape (db : DB) (r : Nat)
    (prev : List Int) (ctype : String) (cid : Int)
    (huniq : uniqueBy numEq (prev.map JsonVal.num) = true) :
    get_quizzes_schema_validate (quizBodyOf prev ctype cid) = true ∧
    quizzes_endpoint db (quizBodyOf prev ctype cid) r =
      get_quizzes db prev cid r := by
  have hval : get_quizzes_schema_validate (quizBodyOf prev ctype cid) = true := by
    simp [quizBodyOf, get_quizzes_schema_validate, propOk, requiredOk, jsonGet,
      previousQuestionsOk, quizCategoryOk, stringOk, digitPatternOk,
      allNum_map, huniq]
  refine ⟨hval, ?_⟩
  unfold quizzes_endpoint
  rw [hval]
  simp [quizBodyOf, jsonGet, List.find?, jsonIds, pyIntOfJson, filterMap_num,
    Function.comp_def, List.filterMap_some]

/-- C8 (amended) at a concrete well-shaped body. -/
theorem get_quizzes_schema_accepted_shape_witness :
    get_quizzes_schema_validate (quizBodyOf [1, 2] "Science" 1) = true ∧
    quizzes_endpoint dbSample (quizBodyOf [1, 2] "Science" 1) 0 =
      get_quizzes dbSample [1, 2] 1 0 :=
  get_quizzes_schema_accepted_shape dbSample 0 [1, 2] "Science" 1 (by decide)

/-- An in-range page of a non-degenerate pagination yields the slice and
the total row count. -/
theorem paginate_in_range (l : List Question) (page : Int) (perPage : Nat)
    (hpp : 0 < perPage) (h1 : 1 ≤ page)
    (hin : (page - 1).toNat * perPage < l.length ∨ page = 1) :
    paginate l page perPage =
      some ((l.drop ((page - 1).toNat * perPage)).take perPage, l.length) := by
  unfold paginate
  rw [if_neg (by omega)]
  have hX : (((l.drop ((page - 1).toNat * perPage)).take perPage).isEmpty
      && !(page == 1)) = false := by
    rcases hin with hk | hp
    · have hlen : ((l.drop ((page - 1).toNat * perPage)).take perPage).length
          = min perPage (l.length - (page - 1).toNat * perPage) := by
        simp [List.length_take, List.length_drop]
      have hpos : 0 < ((l.drop ((page - 1).toNat * perPage)).take perPage).length := by
        rw [hlen]; omega
      have : ((l.drop ((page - 1).toNat * perPage)).take perPage).isEmpty = false := by
        rw [List.isEmpty_eq_false]
        exact List.ne_nil_of_length_pos hpos
      rw [this]
      rfl
    · subst hp
      simp
  simp only [hX, Bool.false_eq_true, if_false]

/-- A page beyond the data (other than page 1) aborts. -/
theorem paginate_out_of_range (l : List Question) (page : Int) (perPage : Nat)
    (h1 : 1 ≤ page) (hne : page ≠ 1)
    (hout : l.length ≤ (page - 1).toNat * perPage) :
    paginate l page perPage = none := by
  unfold paginate
  rw [if_neg (by omega)]
  have hdrop : l.drop ((page - 1).toNat * perPage) = [] :=
    List.drop_eq_nil_of_le hout
  have hbeq : (page == 1) = false := by
    simp [hne]
  have hX : (((l.drop ((page - 1).toNat * perPage)).take perPage).isEmpty
      && !(page == 1)) = true := by
    rw [hdrop, hbeq, List.take_nil]
    rfl
  simp only [hX]
  rfl

/-- C5: for an in-range page (with at least one category present), the
questions endpoint answers 200 with the id-ordered table sliced to that
page — the slice holding `min 10 (remaining)` items, hence exactly 10 on
every non-final page — and `totalQuestions` equal to the full row count;
the id-ordering is genuine (the listed sequence is sorted by id and a
permutation of the table). A page out of range for the data, or an empty
category table, answers 404. -/
theorem get_questions_pagination (db : DB) (page : Int) :
    (db.categories ≠ [] → 1 ≤ page →
     ((page - 1).toNat * QUESTIONS_PER_PAGE < db.questions.length ∨ page = 1) →
       get_questions_core db page = .ok 200
         ⟨((sortById db.questions).drop
             ((page - 1).toNat * QUESTIONS_PER_PAGE)).take QUESTIONS_PER_PAGE,
           db.questions.length,
           db.categories.map (fun c => (c.id, c.type)), none⟩ ∧
       (((sortById db.questions).drop
             ((page - 1).toNat * QUESTIONS_PER_PAGE)).take QUESTIONS_PER_PAGE).length
         = min QUESTIONS_PER_PAGE
             (db.questions.length - (page - 1).toNat * QUESTIONS_PER_PAGE) ∧
       (sortById db.questions).Pairwise idLE ∧
       (sortById db.questions).Perm db.questions) ∧
    (1 ≤ page → page ≠ 1 →
       db.questions.length ≤ (page - 1).toNat * QUESTIONS_PER_PAGE →
       get_questions_core db page = .fail 404) ∧
    (page < 1 → get_questions_core db page = .fail 404) ∧
    (db.categories = [] → get_questions_core db page = .fail 404) := by
  have hsortlen : (sortById db.questions).length = db.questions.length :=
    (List.perm_insertionSort idLE db.questions).length_eq
  refine ⟨?_, ?_, ?_, ?_⟩
  · intro hcat h1 hin
    unfold get_questions_core
    rw [paginate_in_range (sortById db.questions) page QUESTIONS_PER_PAGE
      (by decide) h1 (by rw [hsortlen]; exact hin)]
    have hcempty : db.categories.isEmpty = false := by
      rw [List.isEmpty_eq_false]; exact hcat
    rw [hcempty]
    refine ⟨by rw [hsortlen]; rfl, ?_, ?_,
      List.perm_insertionSort idLE db.questions⟩
    · simp [List.length_take, List.length_drop, hsortlen]
    · exact List.sorted_insertionSort idLE db.questions
  · intro h1 hne hout
    unfold get_questions_core
    rw [paginate_out_of_range (sortById db.questions) page QUESTIONS_PER_PAGE
      h1 hne (by rw [hsortlen]; exact hout)]
  · intro hlt
    unfold get_questions_core
    have : paginate (sortById db.questions) page QUESTIONS_PER_PAGE = none := by
      unfold paginate
      rw [if_pos hlt]
    rw [this]
  · intro hcat
    unfold get_questions_core
    cases hpag : paginate (sortById db.questions) page QUESTIONS_PER_PAGE with
    | none => rfl
    | some pr =>
      have hcempty : db.categories.isEmpty = true := by
        rw [List.isEmpty_iff]; exact hcat
      cases pr with
      | mk items total => rw [hcempty]; rfl

/-- C5 at page 1 of the sample store: the ordered slice, its length, and
the total count. -/
theorem get_questions_pagination_witness :
    get_questions_core dbSample 1 = .ok 200
      ⟨[qScience1, qScience2, qArt3], 3, [(1, "Science"), (2, "Art")], none⟩ :=
  ((get_questions_pagination dbSample 1).1 (by decide) (by decide)
    (Or.inr rfl)).1

/-- Some suffix of every string is empty. -/
theorem tails_any_isEmpty (s : List Char) :
    (tailsList s).any (fun t => t.isEmpty) = true := by
  induction s with
  | nil => rfl
  | cons c s2 ih => simp [tailsList, ih]

/-- The pattern `%` matches everything. -/
theorem likeMatch_pct_all (s : List Char) : likeMatch ['%'] s = true := by
  show (tailsList s).any (fun t => likeMatch [] t) = true
  exact tails_any_isEmpty s

/-- One-step unfolding of `likeMatch` at a non-empty pattern. -/
theorem likeMatch_cons (c : Char) (ps s : List Char) :
    likeMatch (c :: ps) s =
      if c = '%' then (tailsList s).any (fun t => likeMatch ps t)
      else if c = '\\' then
        (match ps, s with
         | e :: ps2, d :: s2 => e == d && likeMatch ps2 s2
         | _, _ => false)
      else
        (match s with
         | [] => false
         | d :: s2 => (c == '_' || c == d) && likeMatch ps s2) := by
  rw [likeMatch.eq_def]

/-- For a metacharacter-free prefix, matching `t%` is exactly "starts
with `t`". -/
theorem likeMatch_append_pct (t : List Char) :
    ∀ s, noLikeMeta t = true → likeMatch (t ++ ['%']) s = startsWithChars t s := by
  induction t with
  | nil =>
    intro s ht
    rw [List.nil_append, likeMatch_pct_all]
    rfl
  | cons c t2 ih =>
    intro s ht
    simp only [noLikeMeta, List.all_cons, Bool.and_eq_true, Bool.not_eq_true',
      beq_eq_false_iff_ne] at ht
    obtain ⟨⟨⟨hcp, hcu⟩, hcb⟩, ht2⟩ := ht
    cases s with
    | nil =>
      rw [List.cons_append, likeMatch_cons, if_neg hcp, if_neg hcb]
      rfl
    | cons d s2 =>
      rw [List.cons_append, likeMatch_cons, if_neg hcp, if_neg hcb]
      have hcu2 : (c == '_') = false := by simp [hcu]
      show ((c == '_' || c == d) && likeMatch (t2 ++ ['%']) s2)
          = startsWithChars (c :: t2) (d :: s2)
      rw [hcu2, Bool.false_or, ih s2 ht2]
      rfl

/-- For a metacharacter-free term, matching `%t%` is exactly substring
containment. -/
theorem likeMatch_pct_wrap (t : List Char) (ht : noLikeMeta t = true)
    (s : List Char) :
    likeMatch ('%' :: (t ++ ['%'])) s = containsSub t s := by
  rw [likeMatch_cons, if_pos rfl]
  have hf : (fun u => likeMatch (t ++ ['%']) u)
      = (fun u => startsWithChars t u) :=
    funext (fun u => likeMatch_append_pct t u ht)
  rw [hf]
  rfl

/-- For terms free of LIKE metacharacters, the ilike filter is exactly
case-insensitive substring containment. -/
theorem ilikeQ_eq_containsSub (term text : String)
    (h : noLikeMeta (lowerChars term) = true) :
    ilikeQ term text = containsSub (lowerChars term) (lowerChars text) :=
  likeMatch_pct_wrap (lowerChars term) h (lowerChars text)

/-- A sample row whose text contains no literal underscore. -/
def qAbc : Question := ⟨7, "abc", "xyz", 1, 1⟩

/-- A store holding only that row. -/
def dbAbc : DB := ⟨[qAbc], [⟨1, "Science"⟩]⟩

/-- C6 counterexample: the search term `a_c` is not a substring of the
stored question text `abc`, yet the search answers 200 with that row,
because the term is interpolated into the LIKE pattern and `_` matches any
character — the result set is not "exactly the case-insensitive substring
matches". -/
theorem search_underscore_not_substring :
    create_questions dbAbc (.obj [("searchTerm", .str "a_c")]) true
      = .ok 200 (.searchResults [qAbc] 1 none) ∧
    containsSub (lowerChars "a_c") (lowerChars "abc") = false ∧
    qAbc.question = "abc" :=
  ⟨by decide, by decide, rfl⟩

/-- C6 (amended): a search-mode request answers exactly the rows whose
`question` text matches the SQL pattern `%term%` case-insensitively —
404 when no row matches, otherwise 200 with the matching rows, their
count, and a null current category; for terms containing none of the LIKE
metacharacters `%`, `_`, `\` this coincides with case-insensitive
substring containment. -/
theorem questions_search_ilike_contract (db : DB)
    (o : List (String × JsonVal)) (commitOk : Bool) (term : String)
    (hval : create_questions_schema_validate (.obj o) = true)
    (hst : jsonGet o "searchTerm" = some (.str term))
    (ht : term ≠ "") :
    create_questions db (.obj o) commitOk = questions_search db term ∧
    (questions_search db term = .fail 404 ↔
       ∀ q ∈ db.questions, ilikeQ term q.question = false) ∧
    (db.questions.filter (fun q => ilikeQ term q.question) ≠ [] →
       questions_search db term = .ok 200
         (.searchResults (db.questions.filter (fun q => ilikeQ term q.question))
           (db.questions.filter (fun q => ilikeQ term q.question)).length none)) ∧
    (∀ q, q ∈ db.questions.filter (fun q => ilikeQ term q.question) ↔
       q ∈ db.questions ∧ ilikeQ term q.question = true) ∧
    (noLikeMeta (lowerChars term) = true → ∀ q : Question,
       ilikeQ term q.question
         = containsSub (lowerChars term) (lowerChars q.question)) := by
  refine ⟨?_, ?_, ?_, ?_, ?_⟩
  · exact create_search_dispatch db o commitOk (.str term) hval hst
      (by simp [JsonVal.truthy, ht])
  · have hiff : questions_search db term = .fail 404 ↔
        (db.questions.filter (fun q => ilikeQ term q.question)).isEmpty = true := by
      unfold questions_search
      by_cases hemp : (db.questions.filter (fun q => ilikeQ term q.question)).isEmpty
      · simp [hemp]
      · simp [hemp]
    rw [hiff, List.isEmpty_iff, List.filter_eq_nil_iff]
    constructor
    · intro hall q hq
      have h2 := hall q hq
      rwa [Bool.not_eq_true] at h2
    · intro hall q hq
      rw [Bool.not_eq_true]
      exact hall q hq
  · intro hne
    have hemp : (db.questions.filter (fun q => ilikeQ term q.question)).isEmpty
        = false := by
      rw [List.isEmpty_eq_false]
      exact hne
    unfold questions_search
    simp [hemp]
  · exact fun q => List.mem_filter
  · intro hmeta q
    exact ilikeQ_eq_containsSub term q.question hmeta

/-- C6 (amended) at a concrete search request. -/
theorem questions_search_ilike_contract_witness :
    create_questions dbSample (.obj [("searchTerm", .str "what")]) true
      = questions_search dbSample "what" :=
  (questions_search_ilike_contract dbSample [("searchTerm", .str "what")] true
    "what" (by decide) rfl (by decide)).1
